import Mathlib

/-!
Shallow embedding of `src/uploader.js`, a CLI that uploads the regular files
of a local directory to an object-storage bucket.  External collaborators
(the AWS S3 client, the filesystem) are modelled as oracles: functions from
keys/paths to deterministic results, supplied as parameters.  The engine
itself (per-file check-then-upload protocol, result aggregation, batching,
report emission, CLI dispatch) is translated from the source.
-/

namespace Uploader

/-- A JavaScript error as observed by the code: an optional `code` property
and a `message` property (`err.code`, `err.message`). -/
structure JsError where
  code : Option String
  message : String
deriving DecidableEq, Repr

/-- Outcome of one file under the check-then-upload protocol. -/
inductive Outcome where
  | uploaded
  | duplicate
  | failed (msg : String)
deriving DecidableEq, Repr

/-- External calls issued while processing one file: `s3.headObject`,
`fs.readFileSync`, `s3.upload`. -/
inductive S3Call where
  | head (key : String)
  | read (path : String)
  | put (key : String)
deriving DecidableEq, Repr

/-- Oracle for the external collaborators, keyed by the S3 key (for
`headObject`/`upload`) or the local path (for `readFileSync`).
`headObject key = none` models a successful HEAD (the object exists);
`some e` models the call throwing `e`.  `putObject key = none` models a
successful upload; `some e` a failed one.  `readFile p` yields the file
bytes or the thrown error. -/
structure Adapter where
  headObject : String → Option JsError
  readFile : String → Except JsError String
  putObject : String → Option JsError

/-- The JS expression `err.code || err.message` (line 173): `code` when it
is present and truthy (a nonempty string), else `message`. -/
def errCodeOrMessage (e : JsError) : String :=
  match e.code with
  | some c => if c = "" then e.message else c
  | none => e.message

/-- `.replace(/\\/g, "/")` (line 137): every backslash becomes a forward
slash. -/
def replaceBackslashes (s : String) : String :=
  String.mk (s.data.map (fun c => if c = '\\' then '/' else c))

/-- `new Date().toISOString().replace(/[:.]/g, "-")` (line 118), applied to
the raw ISO timestamp: every colon and dot becomes a dash. -/
def sanitizeTimestamp (s : String) : String :=
  String.mk (s.data.map (fun c => if c = ':' || c = '.' then '-' else c))

/-- The host path separator: backslash on Windows, slash elsewhere. -/
def sepOf (win : Bool) : String := if win then "\\" else "/"

/-- The `path.join` function of Node (external library), modelled for plain segments:
for nonempty segments containing no separators and distinct from "." and
"..", `path.join a b` is `a ++ sep ++ b` on both platforms. -/
def pathJoin (sep a b : String) : String := a ++ sep ++ b

/-- A segment for which the `pathJoin` model is faithful: nonempty, not a
dot segment, and free of both separator characters. -/
def isPlainSegment (s : String) : Bool :=
  s ≠ "" && s ≠ "." && s ≠ ".." &&
    s.data.all (fun c => c ≠ '/' && c ≠ '\\')

/-- The S3 key of a file (line 137):
`path.join(s3Path, fileName).replace(/\\/g, "/")`. -/
def s3KeyOf (win : Bool) (s3Path fileName : String) : String :=
  replaceBackslashes (pathJoin (sepOf win) s3Path fileName)

/-- `processFile` (lines 135-179), minus the progress counter handled by
the caller model: returns the recorded outcome together with the list of
external calls issued, in order. -/
def processFile (a : Adapter) (win : Bool) (localPath s3Path fileName : String) :
    Outcome × List S3Call :=
  let localFilePath := pathJoin (sepOf win) localPath fileName
  let s3Key := s3KeyOf win s3Path fileName
  match a.headObject s3Key with
  | none => (Outcome.duplicate, [S3Call.head s3Key])
  | some err =>
    if err.code = some "NotFound" then
      match a.readFile localFilePath with
      | Except.ok _ =>
        match a.putObject s3Key with
        | none =>
          (Outcome.uploaded,
            [S3Call.head s3Key, S3Call.read localFilePath, S3Call.put s3Key])
        | some uploadError =>
          (Outcome.failed uploadError.message,
            [S3Call.head s3Key, S3Call.read localFilePath, S3Call.put s3Key])
      | Except.error readError =>
        (Outcome.failed readError.message,
          [S3Call.head s3Key, S3Call.read localFilePath])
    else
      (Outcome.failed ("Failed to check S3 status: " ++ errCodeOrMessage err),
        [S3Call.head s3Key])

/-- The aggregation state of `uploadDirectory` (lines 119-121):
`uploadedCount`, `duplicatedFiles`, `notUploadedFiles`
(pairs `(file, error)`). -/
structure BatchResult where
  uploadedCount : Nat
  duplicatedFiles : List String
  notUploadedFiles : List (String × String)
deriving DecidableEq, Repr

def BatchResult.empty : BatchResult := ⟨0, [], []⟩

/-- Record one outcome into the aggregation state (lines 143, 157, 163-166,
171-174): exactly one bucket receives the file. -/
def recordOutcome (r : BatchResult) (fileName : String) : Outcome → BatchResult
  | Outcome.uploaded => { r with uploadedCount := r.uploadedCount + 1 }
  | Outcome.duplicate =>
      { r with duplicatedFiles := r.duplicatedFiles ++ [fileName] }
  | Outcome.failed msg =>
      { r with notUploadedFiles := r.notUploadedFiles ++ [(fileName, msg)] }

/-- Processing of the task list: fold `processFile` over the files,
accumulating the aggregation state, the concatenated list of external
calls, and the progress counter values printed after each task
(`processedCount` at lines 177-178).  `done` is the count of tasks already
processed before this call. -/
def runTasksFrom (a : Adapter) (win : Bool) (localPath s3Path : String)
    (r : BatchResult) (done : Nat) (files : List String) :
    BatchResult × List S3Call × List Nat :=
  match files with
  | [] => (r, [], [])
  | f :: rest =>
      let step := processFile a win localPath s3Path f
      let tail := runTasksFrom a win localPath s3Path
        (recordOutcome r f step.1) (done + 1) rest
      (tail.1, step.2 ++ tail.2.1, (done + 1) :: tail.2.2)

/-- One directory entry as seen by the scanner: the name returned by
`fs.readdirSync` plus the `statSync(...).isFile()` verdict used by the
filter at lines 125-128. -/
structure DirEntry where
  name : String
  isFile : Bool
deriving DecidableEq, Repr

/-- The payload handed to `JSON.stringify(..., null, 2)` for each report
file; the textual pretty-printing itself is external. -/
inductive ReportContent where
  | duplicateList (files : List String)
  | failureList (entries : List (String × String))
deriving DecidableEq, Repr

def dupReportName (timestamp : String) : String :=
  "duplicated_" ++ timestamp ++ ".json"

def failReportName (timestamp : String) : String :=
  "not_uploaded_files_" ++ timestamp ++ ".json"

/-- Observable result of one `uploadDirectory` run. -/
structure RunOutput where
  exitCode : Nat
  result : Option BatchResult
  calls : List S3Call
  progress : List Nat
  reportsWritten : List (String × ReportContent)
  summaryPrinted : Bool
  notFoundDiagnostic : Bool
deriving DecidableEq, Repr

/-- `uploadDirectory` (lines 106-234).  `credsOk` models whether the three
environment variables are present (`getAWSConfig` calls `process.exit(1)`
otherwise, before anything else happens).  `scan` is the oracle for
`fs.readdirSync` plus the `isFile` stats: either the thrown error or the
entry list.  On a scan error the `catch` at lines 226-233 logs a generic
message, logs the targeted not-found message exactly when
`error.code === "ENOENT"`, and the function returns normally, so the
process exit code is 0. -/
def uploadDirectory (a : Adapter) (credsOk win : Bool)
    (localPath s3Path rawTimestamp : String)
    (scan : Except JsError (List DirEntry)) : RunOutput :=
  if credsOk then
    let timestamp := sanitizeTimestamp rawTimestamp
    match scan with
    | Except.error e =>
        { exitCode := 0, result := none, calls := [], progress := [],
          reportsWritten := [], summaryPrinted := false,
          notFoundDiagnostic := e.code == some "ENOENT" }
    | Except.ok entries =>
        let files := (entries.filter (fun e => e.isFile)).map (fun e => e.name)
        let run := runTasksFrom a win localPath s3Path BatchResult.empty 0 files
        let r := run.1
        let dupReports :=
          if 0 < r.duplicatedFiles.length then
            [(dupReportName timestamp, ReportContent.duplicateList r.duplicatedFiles)]
          else []
        let failReports :=
          if 0 < r.notUploadedFiles.length then
            [(failReportName timestamp, ReportContent.failureList r.notUploadedFiles)]
          else []
        { exitCode := 0, result := some r, calls := run.2.1,
          progress := run.2.2, reportsWritten := dupReports ++ failReports,
          summaryPrinted := true, notFoundDiagnostic := false }
  else
    { exitCode := 1, result := none, calls := [], progress := [],
      reportsWritten := [], summaryPrinted := false,
      notFoundDiagnostic := false }

/-- The dispatch at lines 237-273 on `process.argv.slice(2)`. -/
inductive CliAction where
  | usageExit
  | runTest (bucket : String)
  | runUpload (localPath bucket s3Folder : String)
deriving DecidableEq, Repr

def dispatch (args : List String) : CliAction :=
  match args with
  | "test" :: rest =>
      match rest with
      | [bucket] => CliAction.runTest bucket
      | _ => CliAction.usageExit
  | "upload" :: rest =>
      match rest with
      | [localDirectory, bucket, s3Folder] =>
          CliAction.runUpload localDirectory bucket s3Folder
      | _ => CliAction.usageExit
  | _ => CliAction.usageExit

/-- Process exit code of a whole invocation.  Usage errors call
`process.exit(1)`.  `testAWSConfiguration` catches every probe error and
returns normally, so its exit code only reflects the credential check.
`uploadDirectory` likewise returns normally in every branch. -/
def cliExitCode (a : Adapter) (credsOk win : Bool) (rawTimestamp : String)
    (scan : Except JsError (List DirEntry)) (args : List String) : Nat :=
  match dispatch args with
  | CliAction.usageExit => 1
  | CliAction.runTest _ => if credsOk then 0 else 1
  | CliAction.runUpload localPath _ s3Folder =>
      (uploadDirectory a credsOk win localPath s3Folder rawTimestamp scan).exitCode

/-- `CONCURRENT_UPLOADS` (line 8). -/
def CONCURRENT_UPLOADS : Nat := 50

/-- The batching loop at lines 181-192: push the promise of each task onto
`queue`; once `queue.length >= k`, await the whole queue and reset it;
after the loop, await the remainder.  The result is the list of awaited
batches, in order. -/
def mkBatchesFrom (k : Nat) (queue : List α) (files : List α) :
    List (List α) :=
  match files with
  | [] => if queue.isEmpty then [] else [queue]
  | f :: rest =>
      let q := queue ++ [f]
      if k ≤ q.length then q :: mkBatchesFrom k [] rest
      else mkBatchesFrom k q rest

def mkBatches (k : Nat) (files : List α) : List (List α) :=
  mkBatchesFrom k [] files

/-- Events of the concurrency trace: the promise of a task is created (started)
or settles (finishes). -/
inductive TaskEvent (α : Type) where
  | start (t : α)
  | finish (t : α)
deriving DecidableEq, Repr

/-- The trace of one batch: all its tasks are started (promises created in
input order) before the engine awaits them, then all of them finish before
`Promise.all` resolves. -/
def chunkTrace (c : List α) : List (TaskEvent α) :=
  c.map TaskEvent.start ++ c.map TaskEvent.finish

/-- The full trace of the engine: the traces of the batches in order, batch N+1
dispatched only after the `Promise.all` of batch N resolved. -/
def engineTrace (k : Nat) (files : List α) : List (TaskEvent α) :=
  (mkBatches k files).flatMap chunkTrace

def inFlightStep (n : Nat) : TaskEvent α → Nat
  | TaskEvent.start _ => n + 1
  | TaskEvent.finish _ => n - 1

/-- Number of in-flight tasks after a trace. -/
def inFlight (tr : List (TaskEvent α)) : Nat := tr.foldl inFlightStep 0

/-! ### Concrete oracles used to exercise the definitions -/

/-- An adapter for which every key already exists remotely. -/
def adapterAllDup : Adapter :=
  { headObject := fun _ => none
    readFile := fun _ => Except.ok ""
    putObject := fun _ => none }

/-- An adapter producing one duplicate (`p/dup.txt` exists), one failed
upload (`p/bad.txt` is rejected with `AccessDenied`), and successful
uploads elsewhere. -/
def adapterMixed : Adapter :=
  { headObject := fun k =>
      if k = "p/dup.txt" then none
      else some { code := some "NotFound", message := "not found" }
    readFile := fun _ => Except.ok "bytes"
    putObject := fun k =>
      if k = "p/bad.txt" then
        some { code := some "AccessDenied", message := "AccessDenied" }
      else none }

/-- The error thrown by `fs.readdirSync` on a missing path. -/
def enoentError : JsError :=
  { code := some "ENOENT", message := "ENOENT: no such file or directory" }

/-- The error thrown by `fs.readdirSync` on a path that exists but is not
a directory. -/
def enotdirError : JsError :=
  { code := some "ENOTDIR", message := "ENOTDIR: not a directory" }

/-! ### Aggregation lemmas -/

/-- Total number of files recorded in the three buckets. -/
def resultSize (r : BatchResult) : Nat :=
  r.uploadedCount + r.duplicatedFiles.length + r.notUploadedFiles.length

lemma resultSize_recordOutcome (r : BatchResult) (f : String) (o : Outcome) :
    resultSize (recordOutcome r f o) = resultSize r + 1 := by
  cases o <;> simp [resultSize, recordOutcome] <;> omega

lemma runTasksFrom_resultSize (a : Adapter) (win : Bool) (lp sp : String)
    (r : BatchResult) (done : Nat) (files : List String) :
    resultSize (runTasksFrom a win lp sp r done files).1 =
      resultSize r + files.length := by
  induction files generalizing r done with
  | nil => simp [runTasksFrom]
  | cons f rest ih =>
      simp only [runTasksFrom]
      rw [ih, resultSize_recordOutcome]
      simp only [List.length_cons]
      omega

/-- C1: each candidate file is recorded in exactly one of the three outcome
buckets, so after a run `uploadedCount` plus the length of the duplicates
list plus the length of the failures list equals the total number of
candidate files. -/
theorem partition_invariant (a : Adapter) (win : Bool)
    (lp sp ts : String) (entries : List DirEntry) :
    ∃ r, (uploadDirectory a true win lp sp ts (Except.ok entries)).result = some r ∧
      r.uploadedCount + r.duplicatedFiles.length + r.notUploadedFiles.length =
        (entries.filter (fun e => e.isFile)).length := by
  refine ⟨(runTasksFrom a win lp sp BatchResult.empty 0
    ((entries.filter (fun e => e.isFile)).map (fun e => e.name))).1, ?_, ?_⟩
  · simp [uploadDirectory]
  · have h := runTasksFrom_resultSize a win lp sp BatchResult.empty 0
      ((entries.filter (fun e => e.isFile)).map (fun e => e.name))
    simpa [resultSize, BatchResult.empty] using h

/-- C2: when the existence check reports that the remote key already
exists (a successful HEAD), the outcome is `Duplicate`, the local file is
never read, and the write operation is never called. -/
theorem duplicate_skips_write (a : Adapter) (win : Bool) (lp sp f : String)
    (h : a.headObject (s3KeyOf win sp f) = none) :
    (processFile a win lp sp f).1 = Outcome.duplicate ∧
    (∀ p, S3Call.read p ∉ (processFile a win lp sp f).2) ∧
    (∀ key, S3Call.put key ∉ (processFile a win lp sp f).2) := by
  simp [processFile, h]

theorem duplicate_skips_write_witness :
    (processFile adapterAllDup false "local" "p" "a.txt").1 = Outcome.duplicate ∧
    (∀ p, S3Call.read p ∉ (processFile adapterAllDup false "local" "p" "a.txt").2) ∧
    (∀ key, S3Call.put key ∉ (processFile adapterAllDup false "local" "p" "a.txt").2) :=
  duplicate_skips_write adapterAllDup false "local" "p" "a.txt" rfl

/-- C3: if the existence check throws an error other than not-found, the
outcome is `Failed` with a message indicating the check itself failed and
the write is never attempted; only when it throws not-found is the file
read, and then the write is issued, recording `Uploaded` on success and
`Failed` with the message of the underlying error on write failure. -/
theorem check_error_and_upload_paths (a : Adapter) (win : Bool)
    (lp sp f : String) (e : JsError)
    (h : a.headObject (s3KeyOf win sp f) = some e) :
    (e.code ≠ some "NotFound" →
      (processFile a win lp sp f).1 =
        Outcome.failed ("Failed to check S3 status: " ++ errCodeOrMessage e) ∧
      ∀ key, S3Call.put key ∉ (processFile a win lp sp f).2) ∧
    (e.code = some "NotFound" →
      S3Call.read (pathJoin (sepOf win) lp f) ∈ (processFile a win lp sp f).2 ∧
      ∀ bytes, a.readFile (pathJoin (sepOf win) lp f) = Except.ok bytes →
        S3Call.put (s3KeyOf win sp f) ∈ (processFile a win lp sp f).2 ∧
        (a.putObject (s3KeyOf win sp f) = none →
          (processFile a win lp sp f).1 = Outcome.uploaded) ∧
        (∀ u, a.putObject (s3KeyOf win sp f) = some u →
          (processFile a win lp sp f).1 = Outcome.failed u.message)) := by
  constructor
  · intro hc
    simp [processFile, h, hc]
  · intro hc
    constructor
    · cases hr : a.readFile (pathJoin (sepOf win) lp f) with
      | ok bytes =>
          cases hp : a.putObject (s3KeyOf win sp f) <;>
            simp [processFile, h, hc, hr, hp]
      | error readError => simp [processFile, h, hc, hr]
    · intro bytes hr
      refine ⟨?_, ?_, ?_⟩
      · cases hp : a.putObject (s3KeyOf win sp f) <;>
          simp [processFile, h, hc, hr, hp]
      · intro hp; simp [processFile, h, hc, hr, hp]
      · intro u hp; simp [processFile, h, hc, hr, hp]

theorem check_error_and_upload_paths_witness :
    S3Call.read (pathJoin (sepOf false) "local" "bad.txt") ∈
      (processFile adapterMixed false "local" "p" "bad.txt").2 ∧
    (processFile adapterMixed false "local" "p" "bad.txt").1 =
      Outcome.failed "AccessDenied" :=
  let h := (check_error_and_upload_paths adapterMixed false "local" "p" "bad.txt"
    ⟨some "NotFound", "not found"⟩ (by decide)).2 rfl
  ⟨h.1, (h.2 "bytes" rfl).2.2 ⟨some "AccessDenied", "AccessDenied"⟩ (by decide)⟩

/-! ### String lemmas for key derivation -/

lemma replaceBackslashes_append (s t : String) :
    replaceBackslashes (s ++ t) = replaceBackslashes s ++ replaceBackslashes t := by
  cases s with
  | mk l =>
    cases t with
    | mk m =>
      show String.mk ((l ++ m).map (fun c => if c = '\\' then '/' else c)) =
        String.mk (l.map (fun c => if c = '\\' then '/' else c) ++
          m.map (fun c => if c = '\\' then '/' else c))
      rw [List.map_append]

lemma replaceBackslashes_eq_self (s : String) (h : ∀ c ∈ s.data, c ≠ '\\') :
    replaceBackslashes s = s := by
  cases s with
  | mk l =>
    show String.mk (l.map (fun c => if c = '\\' then '/' else c)) = String.mk l
    congr 1
    have h' : ∀ c ∈ l, (fun c => if c = '\\' then '/' else c) c = c := by
      intro c hc
      simp only [if_neg (h c hc)]
    simp only [List.map_congr_left h', List.map_id']

/-- C7: the remote key is the join of the destination prefix and the file
name with every path separator normalized to a forward slash, on both
host platforms; in particular `"photos"` and `"a.txt"` give
`"photos/a.txt"`. -/
theorem remote_key_join (win : Bool) (p f : String)
    (hp : isPlainSegment p = true) (hf : isPlainSegment f = true) :
    s3KeyOf win p f = p ++ "/" ++ f := by
  have noBs : ∀ s : String, isPlainSegment s = true → ∀ c ∈ s.data, c ≠ '\\' := by
    intro s hs c hc
    simp only [isPlainSegment, Bool.and_eq_true, List.all_eq_true,
      decide_eq_true_eq] at hs
    exact (hs.2 c hc).2
  have hsep : replaceBackslashes (sepOf win) = "/" := by
    cases win <;> rfl
  calc s3KeyOf win p f
      = replaceBackslashes p ++ replaceBackslashes (sepOf win) ++
          replaceBackslashes f := by
        simp only [s3KeyOf, pathJoin, replaceBackslashes_append]
    _ = p ++ "/" ++ f := by
        rw [hsep, replaceBackslashes_eq_self p (noBs p hp),
          replaceBackslashes_eq_self f (noBs f hf)]

theorem remote_key_join_witness :
    s3KeyOf false "photos" "a.txt" = "photos/a.txt" ∧
    s3KeyOf true "photos" "a.txt" = "photos/a.txt" :=
  ⟨by rw [remote_key_join false "photos" "a.txt" (by decide) (by decide)]; decide,
   by rw [remote_key_join true "photos" "a.txt" (by decide) (by decide)]; decide⟩

/-! ### Report-writing lemmas -/

lemma dupReportName_ne_failReportName (ts : String) :
    dupReportName ts ≠ failReportName ts := by
  intro h
  have hlen := congrArg String.length h
  simp only [dupReportName, failReportName, String.length_append] at hlen
  have h1 : ("duplicated_" : String).length = 11 := rfl
  have h2 : ("not_uploaded_files_" : String).length = 19 := rfl
  omega

lemma reports_spec (ts : String) (d : List String)
    (nu : List (String × String)) :
    ((dupReportName ts, ReportContent.duplicateList d) ∈
        ((if 0 < d.length then
            [(dupReportName ts, ReportContent.duplicateList d)] else []) ++
          (if 0 < nu.length then
            [(failReportName ts, ReportContent.failureList nu)] else [])) ↔
      d ≠ []) ∧
    ((failReportName ts, ReportContent.failureList nu) ∈
        ((if 0 < d.length then
            [(dupReportName ts, ReportContent.duplicateList d)] else []) ++
          (if 0 < nu.length then
            [(failReportName ts, ReportContent.failureList nu)] else [])) ↔
      nu ≠ []) ∧
    (∀ x ∈ ((if 0 < d.length then
          [(dupReportName ts, ReportContent.duplicateList d)] else []) ++
        (if 0 < nu.length then
          [(failReportName ts, ReportContent.failureList nu)] else [])),
      x.1 = dupReportName ts ∨ x.1 = failReportName ts) := by
  have hne := dupReportName_ne_failReportName ts
  by_cases hd : 0 < d.length <;> by_cases hn : 0 < nu.length <;>
    simp [hd, hn, List.length_pos.symm, Nat.pos_iff_ne_zero,
      List.length_eq_zero, hne, Ne.symm hne]

/-- C8: `duplicated_<timestamp>.json` is written with the duplicates list
if and only if that bucket is non-empty, `not_uploaded_files_<timestamp>.json`
is written with the failures list if and only if that bucket is non-empty,
no other file is written, and both names use the single run timestamp with
colons and dots replaced by dashes. -/
theorem report_files_iff_nonempty (a : Adapter) (win : Bool)
    (lp sp rawTs : String) (entries : List DirEntry) (r : BatchResult)
    (h : (uploadDirectory a true win lp sp rawTs (Except.ok entries)).result =
      some r) :
    ((dupReportName (sanitizeTimestamp rawTs),
        ReportContent.duplicateList r.duplicatedFiles) ∈
      (uploadDirectory a true win lp sp rawTs (Except.ok entries)).reportsWritten ↔
        r.duplicatedFiles ≠ []) ∧
    ((failReportName (sanitizeTimestamp rawTs),
        ReportContent.failureList r.notUploadedFiles) ∈
      (uploadDirectory a true win lp sp rawTs (Except.ok entries)).reportsWritten ↔
        r.notUploadedFiles ≠ []) ∧
    (∀ x ∈ (uploadDirectory a true win lp sp rawTs
        (Except.ok entries)).reportsWritten,
      x.1 = dupReportName (sanitizeTimestamp rawTs) ∨
      x.1 = failReportName (sanitizeTimestamp rawTs)) := by
  have hr : r = (runTasksFrom a win lp sp BatchResult.empty 0
      ((entries.filter (fun e => e.isFile)).map (fun e => e.name))).1 := by
    simpa [uploadDirectory] using h.symm
  subst hr
  have hs := reports_spec (sanitizeTimestamp rawTs)
    (runTasksFrom a win lp sp BatchResult.empty 0
      ((entries.filter (fun e => e.isFile)).map (fun e => e.name))).1.duplicatedFiles
    (runTasksFrom a win lp sp BatchResult.empty 0
      ((entries.filter (fun e => e.isFile)).map (fun e => e.name))).1.notUploadedFiles
  simpa [uploadDirectory] using hs

theorem report_files_iff_nonempty_witness :
    (dupReportName (sanitizeTimestamp "2026-10-12T00:00:00.000Z"),
       ReportContent.duplicateList ["dup.txt"]) ∈
      (uploadDirectory adapterMixed true false "local" "p"
        "2026-10-12T00:00:00.000Z"
        (Except.ok [⟨"dup.txt", true⟩, ⟨"ok.txt", true⟩, ⟨"bad.txt", true⟩])).reportsWritten ∧
    (failReportName (sanitizeTimestamp "2026-10-12T00:00:00.000Z"),
       ReportContent.failureList [("bad.txt", "AccessDenied")]) ∈
      (uploadDirectory adapterMixed true false "local" "p"
        "2026-10-12T00:00:00.000Z"
        (Except.ok [⟨"dup.txt", true⟩, ⟨"ok.txt", true⟩, ⟨"bad.txt", true⟩])).reportsWritten :=
  let h := report_files_iff_nonempty adapterMixed false "local" "p"
    "2026-10-12T00:00:00.000Z"
    [⟨"dup.txt", true⟩, ⟨"ok.txt", true⟩, ⟨"bad.txt", true⟩]
    ⟨1, ["dup.txt"], [("bad.txt", "AccessDenied")]⟩ (by decide)
  ⟨h.1.mpr (by decide), h.2.1.mpr (by decide)⟩

/-! ### Progress and summary -/

lemma runTasksFrom_progress (a : Adapter) (win : Bool) (lp sp : String)
    (r : BatchResult) (done : Nat) (files : List String) :
    (runTasksFrom a win lp sp r done files).2.2 =
      (List.range files.length).map (fun i => done + i + 1) := by
  induction files generalizing r done with
  | nil => simp [runTasksFrom]
  | cons f rest ih =>
      simp only [runTasksFrom, ih, List.length_cons, List.range_succ_eq_map,
        List.map_cons, List.map_map]
      congr 1
      exact List.map_congr_left
        (fun i _ => by simp only [Function.comp_apply]; omega)

/-- C9: no task failure aborts the batch: for every scan that succeeds the
engine records an outcome for every candidate file, the summary is always
printed, one progress line is emitted per completed task carrying the
counts `1, 2, ..., total`, and the count reaches the total exactly once. -/
theorem progress_and_summary (a : Adapter) (win : Bool)
    (lp sp ts : String) (entries : List DirEntry) :
    (uploadDirectory a true win lp sp ts (Except.ok entries)).summaryPrinted =
      true ∧
    (uploadDirectory a true win lp sp ts (Except.ok entries)).progress =
      (List.range (entries.filter (fun e => e.isFile)).length).map
        (fun i => i + 1) ∧
    (0 < (entries.filter (fun e => e.isFile)).length →
      (uploadDirectory a true win lp sp ts (Except.ok entries)).progress.count
        (entries.filter (fun e => e.isFile)).length = 1) := by
  have hp := runTasksFrom_progress a win lp sp BatchResult.empty 0
    ((entries.filter (fun e => e.isFile)).map (fun e => e.name))
  have hprog : (uploadDirectory a true win lp sp ts
      (Except.ok entries)).progress =
      (List.range (entries.filter (fun e => e.isFile)).length).map
        (fun i => i + 1) := by
    simpa [uploadDirectory] using hp
  refine ⟨by simp [uploadDirectory], hprog, fun hn => ?_⟩
  rw [hprog,
    show (List.range (entries.filter (fun e => e.isFile)).length).map
        (fun i => i + 1) =
      List.range' 1 (entries.filter (fun e => e.isFile)).length from by
        rw [List.range'_eq_map_range]
        exact List.map_congr_left (fun i _ => Nat.add_comm i 1)]
  exact List.count_eq_one_of_mem (List.nodup_range' _ _)
    (by simp [List.mem_range'_1]; omega)

theorem progress_and_summary_witness :
    (uploadDirectory adapterAllDup true false "local" "p" "ts"
      (Except.ok [⟨"a.txt", true⟩, ⟨"b.txt", true⟩])).progress.count 2 = 1 :=
  (progress_and_summary adapterAllDup false "local" "p" "ts"
    [⟨"a.txt", true⟩, ⟨"b.txt", true⟩]).2.2 (by decide)

/-- C10: when the directory exists but holds no regular file, the run is
identical to a run over an empty directory: no external call is issued,
every bucket is empty, no report file is written, and the summary is still
printed. -/
theorem no_regular_files_run (a : Adapter) (win : Bool) (lp sp ts : String)
    (entries : List DirEntry) (h : ∀ e ∈ entries, e.isFile = false) :
    uploadDirectory a true win lp sp ts (Except.ok entries) =
      uploadDirectory a true win lp sp ts (Except.ok []) ∧
    (uploadDirectory a true win lp sp ts (Except.ok entries)).calls = [] ∧
    (uploadDirectory a true win lp sp ts (Except.ok entries)).result =
      some BatchResult.empty ∧
    (uploadDirectory a true win lp sp ts (Except.ok entries)).reportsWritten =
      [] ∧
    (uploadDirectory a true win lp sp ts (Except.ok entries)).summaryPrinted =
      true := by
  have hf : entries.filter (fun e => e.isFile) = [] :=
    List.filter_eq_nil_iff.mpr (by intro e he; simp [h e he])
  refine ⟨?_, ?_, ?_, ?_, ?_⟩ <;>
    simp [uploadDirectory, hf, runTasksFrom, BatchResult.empty]

theorem no_regular_files_run_witness :
    (uploadDirectory adapterMixed true false "local" "p" "ts"
      (Except.ok [⟨"subdir", false⟩])).result = some BatchResult.empty ∧
    (uploadDirectory adapterMixed true false "local" "p" "ts"
      (Except.ok [⟨"subdir", false⟩])).calls = [] :=
  let h := no_regular_files_run adapterMixed false "local" "p" "ts"
    [⟨"subdir", false⟩] (by decide)
  ⟨h.2.2.1, h.2.1⟩

/-! ### Exit codes and scan failure -/

/-- C4 counterexample: the claim requires a non-zero exit code when the
enumeration of the local directory fails, but the `catch` at lines 226-233
only logs the error and `uploadDirectory` returns normally, so the process
exits 0 even then. -/
theorem upload_exit_zero_on_scan_error :
    cliExitCode adapterMixed true false "2026-10-12T00:00:00.000Z"
      (Except.error enoentError)
      ["upload", "photos-dir", "bucket", "photos"] = 0 := rfl

/-- C4 (amended): the upload command exits 0 on completion regardless of
individual task failures, and also exits 0 when directory enumeration
fails (the error is caught and logged); argument errors exit non-zero. -/
theorem upload_exit_codes (a : Adapter) (credsOk win : Bool) (ts : String)
    (scan : Except JsError (List DirEntry)) (args : List String)
    (lp b p : String) :
    (dispatch args = CliAction.usageExit →
      cliExitCode a credsOk win ts scan args = 1) ∧
    (dispatch args = CliAction.runUpload lp b p → credsOk = true →
      cliExitCode a credsOk win ts scan args = 0) := by
  constructor
  · intro h
    simp [cliExitCode, h]
  · intro h hc
    subst hc
    cases scan <;> simp [cliExitCode, h, uploadDirectory]

theorem upload_exit_codes_witness :
    cliExitCode adapterMixed true false "ts" (Except.error enoentError)
      ["bogus"] = 1 ∧
    cliExitCode adapterMixed true false "ts" (Except.error enoentError)
      ["upload", "d", "b", "p"] = 0 :=
  ⟨(upload_exit_codes adapterMixed true false "ts" (Except.error enoentError)
      ["bogus"] "d" "b" "p").1 rfl,
   (upload_exit_codes adapterMixed true false "ts" (Except.error enoentError)
      ["upload", "d", "b", "p"] "d" "b" "p").2 rfl rfl⟩

/-- C5 counterexample: when the path exists but is not a directory,
`fs.readdirSync` throws `ENOTDIR`, not `ENOENT`; the code at lines 228-232
only matches `ENOENT`, so the targeted "directory not found" diagnostic is
not printed in that case, contradicting the claim that it covers exactly
the two cases. -/
theorem enotdir_no_targeted_diagnostic :
    (uploadDirectory adapterMixed true false "some-file.txt" "photos"
      "2026-10-12T00:00:00.000Z"
      (Except.error enotdirError)).notFoundDiagnostic = false := rfl

/-- C5 (amended): any scan failure aborts the run before any task starts —
no external call, no progress line, no report file, no summary — and the
targeted not-found diagnostic is printed exactly when the code of the scan error
is `ENOENT` (a path that exists but is not a directory yields
`ENOTDIR` and only the generic message). -/
theorem scan_error_aborts_run (a : Adapter) (win : Bool) (lp sp ts : String)
    (e : JsError) :
    (uploadDirectory a true win lp sp ts (Except.error e)).result = none ∧
    (uploadDirectory a true win lp sp ts (Except.error e)).calls = [] ∧
    (uploadDirectory a true win lp sp ts (Except.error e)).progress = [] ∧
    (uploadDirectory a true win lp sp ts (Except.error e)).reportsWritten =
      [] ∧
    (uploadDirectory a true win lp sp ts (Except.error e)).summaryPrinted =
      false ∧
    ((uploadDirectory a true win lp sp ts (Except.error e)).notFoundDiagnostic =
        true ↔ e.code = some "ENOENT") := by
  refine ⟨rfl, rfl, rfl, rfl, rfl, ?_⟩
  simp [uploadDirectory]

theorem scan_error_aborts_run_witness :
    (uploadDirectory adapterAllDup true false "d" "p" "ts"
      (Except.error enoentError)).result = none ∧
    (uploadDirectory adapterAllDup true false "d" "p" "ts"
      (Except.error enoentError)).notFoundDiagnostic = true :=
  let h := scan_error_aborts_run adapterAllDup false "d" "p" "ts" enoentError
  ⟨h.1, h.2.2.2.2.2.mpr rfl⟩

/-! ### Concurrency discipline -/

lemma mkBatchesFrom_flatten (k : Nat) (queue files : List α) :
    (mkBatchesFrom k queue files).flatten = queue ++ files := by
  induction files generalizing queue with
  | nil =>
      by_cases h : queue.isEmpty
      · simp [mkBatchesFrom, h, List.isEmpty_iff.mp h]
      · simp [mkBatchesFrom, h]
  | cons f rest ih =>
      simp only [mkBatchesFrom]
      by_cases h : k ≤ (queue ++ [f]).length
      · rw [if_pos h]
        simp [ih]
      · rw [if_neg h, ih]
        simp

lemma mkBatchesFrom_length_le (k : Nat) (queue files : List α)
    (hq : queue.length < k) :
    ∀ b ∈ mkBatchesFrom k queue files, b.length ≤ k := by
  induction files generalizing queue with
  | nil =>
      intro b hb
      by_cases h : queue.isEmpty
      · simp [mkBatchesFrom, h] at hb
      · simp [mkBatchesFrom, h] at hb
        exact hb ▸ Nat.le_of_lt hq
  | cons f rest ih =>
      intro b hb
      simp only [mkBatchesFrom] at hb
      by_cases h : k ≤ (queue ++ [f]).length
      · rw [if_pos h] at hb
        rcases List.mem_cons.mp hb with rfl | hb'
        · simp only [List.length_append, List.length_cons, List.length_nil]
          omega
        · exact ih []
            (by simpa using Nat.lt_of_le_of_lt (Nat.zero_le queue.length) hq)
            b hb'
      · rw [if_neg h] at hb
        exact ih (queue ++ [f]) (Nat.lt_of_not_le h) b hb

lemma foldl_inFlightStep_start (l : List α) (n : Nat) :
    (l.map TaskEvent.start).foldl inFlightStep n = n + l.length := by
  induction l generalizing n with
  | nil => simp
  | cons a l ih =>
      simp only [List.map_cons, List.foldl_cons, inFlightStep, List.length_cons]
      rw [ih]
      omega

lemma foldl_inFlightStep_finish (l : List α) (n : Nat) :
    (l.map TaskEvent.finish).foldl inFlightStep n = n - l.length := by
  induction l generalizing n with
  | nil => simp
  | cons a l ih =>
      simp only [List.map_cons, List.foldl_cons, inFlightStep, List.length_cons]
      rw [ih]
      omega

lemma inFlight_chunkTrace (c : List α) : inFlight (chunkTrace c) = 0 := by
  simp only [inFlight, chunkTrace, List.foldl_append,
    foldl_inFlightStep_start, foldl_inFlightStep_finish]
  omega

lemma inFlight_take_chunkTrace (c : List α) (i : Nat) :
    inFlight ((chunkTrace c).take i) ≤ c.length := by
  simp only [inFlight, chunkTrace, List.take_append_eq_append_take,
    List.foldl_append]
  rw [← List.map_take, ← List.map_take, foldl_inFlightStep_start,
    foldl_inFlightStep_finish]
  have h1 : (c.take i).length ≤ c.length := by
    simp [List.length_take]
  omega

lemma inFlight_flatMap_chunkTrace (L : List (List α)) :
    inFlight (L.flatMap chunkTrace) = 0 := by
  induction L with
  | nil => rfl
  | cons c L ih =>
      rw [List.flatMap_cons, inFlight, List.foldl_append]
      have h0 : (chunkTrace c).foldl inFlightStep 0 = 0 := inFlight_chunkTrace c
      rw [h0]
      exact ih

lemma inFlight_take_flatMap (k : Nat) (L : List (List α)) (n : Nat)
    (hL : ∀ b ∈ L, b.length ≤ k) :
    inFlight ((L.flatMap chunkTrace).take n) ≤ k := by
  induction L generalizing n with
  | nil => simp [inFlight]
  | cons c L ih =>
      by_cases h : (chunkTrace c).length ≤ n
      · rw [List.flatMap_cons, List.take_append_eq_append_take,
          List.take_of_length_le h, inFlight, List.foldl_append]
        have h0 : (chunkTrace c).foldl inFlightStep 0 = 0 := inFlight_chunkTrace c
        rw [h0]
        exact ih (n - (chunkTrace c).length)
          (fun b hb => hL b (List.mem_cons_of_mem _ hb))
      · have hlt : n < (chunkTrace c).length := Nat.lt_of_not_le h
        rw [List.flatMap_cons, List.take_append_of_le_length (Nat.le_of_lt hlt)]
        exact le_trans (inFlight_take_chunkTrace c n)
          (hL c (List.mem_cons_self c L))

/-- C6: the engine partitions the tasks into consecutive batches of size
at most the concurrency limit (default `CONCURRENT_UPLOADS = 50`);
every task of a batch is started before any of the batch is awaited, the
whole batch completes before the next batch is dispatched (in-flight count
is zero at every batch boundary), and at most `k` tasks are in flight at
any instant of the trace. -/
theorem batch_concurrency_discipline (k : Nat) (hk : 1 ≤ k)
    (files : List String) :
    CONCURRENT_UPLOADS = 50 ∧
    (mkBatches k files).flatten = files ∧
    (∀ b ∈ mkBatches k files, b.length ≤ k) ∧
    (∀ n, inFlight ((engineTrace k files).take n) ≤ k) ∧
    (∀ i, inFlight (((mkBatches k files).take i).flatMap chunkTrace) = 0) := by
  have hlen : ∀ b ∈ mkBatches k files, b.length ≤ k :=
    mkBatchesFrom_length_le k [] files (by simpa using hk)
  refine ⟨rfl, ?_, hlen, ?_, ?_⟩
  · simpa using mkBatchesFrom_flatten k [] files
  · intro n
    exact inFlight_take_flatMap k (mkBatches k files) n hlen
  · intro i
    exact inFlight_flatMap_chunkTrace _

theorem batch_concurrency_discipline_witness :
    1 ≤ CONCURRENT_UPLOADS ∧
    (mkBatches CONCURRENT_UPLOADS ["a.txt", "b.txt", "c.txt"]).flatten =
      ["a.txt", "b.txt", "c.txt"] ∧
    inFlight ((engineTrace CONCURRENT_UPLOADS
      ["a.txt", "b.txt", "c.txt"]).take 2) ≤ CONCURRENT_UPLOADS :=
  ⟨by decide,
   (batch_concurrency_discipline CONCURRENT_UPLOADS (by decide)
     ["a.txt", "b.txt", "c.txt"]).2.1,
   (batch_concurrency_discipline CONCURRENT_UPLOADS (by decide)
     ["a.txt", "b.txt", "c.txt"]).2.2.2.1 2⟩

end Uploader
